import Mathlib

/-!
Verification development for the dealsense-ai live-call backend.

The Python sources are shallowly embedded:
* strings are represented as `List Char` (Python `str` is a sequence of code
  points, so indexing/slicing maps to list operations);
* `datetime.date` values are represented by their civil day number (days since
  0000-03-01 in the proleptic Gregorian calendar, the classic
  days-from-civil encoding), with conversion to and from `YYYY-MM-DD` text;
* the external LLM (`llm.invoke`) and `json.loads` are oracles passed as
  parameters (`Option String` response / `String → Option Json` decoder,
  `none` modelling a raised exception resp. `json.JSONDecodeError`);
* Python exceptions that propagate out of an embedded function are modelled
  with `Except Unit`;
* mutable repository / buffer / connection-manager state is passed explicitly.
-/

/-- Python strings as lists of code points. -/
abbrev Str := List Char

/-- Code points of a Lean string literal. -/
def chars (s : String) : Str := s.data

/-- Python `str.lower()` (ASCII case folding; all embedded literals are ASCII). -/
def pyLower (s : Str) : Str := s.map Char.toLower

/-- Python `str.strip()` with no argument: trim leading/trailing whitespace. -/
def pyStrip (s : Str) : Str :=
  ((s.dropWhile Char.isWhitespace).reverse.dropWhile Char.isWhitespace).reverse

/-- Python `str.startswith`. -/
def pyStartsWith (s p : Str) : Bool := p.isPrefixOf s

/-- Python `needle in hay` on strings: substring containment. -/
def pyContains (hay needle : Str) : Bool :=
  (List.range (hay.length + 1)).any (fun i => pyStartsWith (hay.drop i) needle)

/-- Python `str.split("\n")`. -/
def splitLines (s : Str) : List Str := s.splitOn (Char.ofNat 10)

/-- Python `"\n".join(lines)`. -/
def joinLines (lines : List Str) : Str := (lines.intersperse [Char.ofNat 10]).flatten

/-- Python `"sep".join` generalised. -/
def joinWith (sep : Str) (parts : List Str) : Str := (parts.intersperse sep).flatten

/-- First index (in code points) of `needle` inside `hay`, like Python `str.find`. -/
def pyFind (hay needle : Str) : Option Nat :=
  (List.range (hay.length + 1)).find? (fun i => pyStartsWith (hay.drop i) needle)

/- ### Civil date arithmetic (days-from-civil encoding) -/

/-- Gregorian leap-year test. -/
def isLeap (y : Nat) : Bool := y % 4 = 0 && (y % 100 ≠ 0 || y % 400 = 0)

/-- Length of month `m` of year `y`. -/
def daysInMonth (y m : Nat) : Nat :=
  if m = 2 then (if isLeap y then 29 else 28)
  else if m = 4 || m = 6 || m = 9 || m = 11 then 30
  else 31

/-- Civil day number of `y-m-d` (days since 0000-03-01). 1970-01-01 is 719468. -/
def absDayOfYmd (y m d : Nat) : Nat :=
  let y' := y - (if m ≤ 2 then 1 else 0)
  let era := y' / 400
  let yoe := y' % 400
  let mp := if 2 < m then m - 3 else m + 9
  let doy := (153 * mp + 2) / 5 + d - 1
  let doe := yoe * 365 + yoe / 4 - yoe / 100 + doy
  era * 146097 + doe

/-- Inverse of `absDayOfYmd`: year, month, day from a civil day number. -/
def ymdOfAbsDay (n : Nat) : Nat × Nat × Nat :=
  let era := n / 146097
  let doe := n % 146097
  let yoe := (doe - doe / 1460 + doe / 36524 - doe / 146096) / 365
  let y := yoe + era * 400
  let doy := doe - (365 * yoe + yoe / 4 - yoe / 100)
  let mp := (5 * doy + 2) / 153
  let d := doy - (153 * mp + 2) / 5 + 1
  let m := if mp < 10 then mp + 3 else mp - 9
  (if m ≤ 2 then y + 1 else y, m, d)

/-- Python `date.weekday()`: Monday = 0 … Sunday = 6. -/
def pyWeekday (n : Nat) : Nat := (n + 2) % 7

/-- Decimal digit character. -/
def digitChar (n : Nat) : Char := Char.ofNat (48 + n)

/-- Decimal digits of a natural number (fuel-bounded recursion). -/
def natCharsAux : Nat → Nat → Str
  | _, 0 => []
  | n, fuel + 1 =>
    if n < 10 then [digitChar n]
    else natCharsAux (n / 10) fuel ++ [digitChar (n % 10)]

/-- Decimal representation of a natural number. -/
def natChars (n : Nat) : Str := natCharsAux n 20

/-- Zero-pad to two digits (strftime `%m` / `%d`). -/
def pad2 (n : Nat) : Str := if n < 10 then digitChar 0 :: natChars n else natChars n

/-- Zero-pad to four digits (strftime `%Y`). -/
def pad4 (n : Nat) : Str :=
  List.replicate (4 - (natChars n).length) (digitChar 0) ++ natChars n

/-- Python `date.strftime("%Y-%m-%d")` on a civil day number. -/
def formatYmd (n : Nat) : Str :=
  let ymd := ymdOfAbsDay n
  pad4 ymd.1 ++ [Char.ofNat 45] ++ pad2 ymd.2.1 ++ [Char.ofNat 45] ++ pad2 ymd.2.2

/-- Split on a separator character (Python `str.split(c)`). -/
def splitOnChar (c : Char) (s : Str) : List Str := s.splitOn c

/-- Value of a non-empty all-digit string. -/
def digitsVal (s : Str) : Nat := s.foldl (fun acc c => acc * 10 + (c.toNat - 48)) 0

/-- Whether every character is an ASCII decimal digit. -/
def allDigits (s : Str) : Bool := !s.isEmpty && s.all Char.isDigit

/-- Python `datetime.strptime(s, "%Y-%m-%d")`: `%Y` is exactly four digits,
`%m`/`%d` one or two digits; the resulting triple must be a valid calendar
date with year at least 1. Returns the civil day number. -/
def parseYmd (s : Str) : Option Nat :=
  match splitOnChar (Char.ofNat 45) s with
  | [ys, ms, ds] =>
    if ys.length = 4 && allDigits ys && allDigits ms && ms.length ≤ 2
        && allDigits ds && ds.length ≤ 2 then
      let y := digitsVal ys
      let m := digitsVal ms
      let d := digitsVal ds
      if 1 ≤ y && 1 ≤ m && m ≤ 12 && 1 ≤ d && d ≤ daysInMonth y m then
        some (absDayOfYmd y m d)
      else none
    else none
  | _ => none

/- ### JSON values (result of `json.loads`)

JSON numbers are modelled as integers; the claims under verification only
exercise integral numeric fields. `json.loads` itself is an external decoder
passed as an oracle of type `Str → Option Json` (`none` = `JSONDecodeError`). -/

/-- Decoded JSON values. -/
inductive Json where
  | null
  | bool (b : Bool)
  | num (n : Int)
  | str (s : Str)
  | arr (xs : List Json)
  | obj (fields : List (Str × Json))

/-- Python `d.get(k, dflt)` on a decoded JSON value: raises (`AttributeError`)
unless the value is a dict. -/
def jGetE (j : Json) (k : Str) (dflt : Json) : Except Unit Json :=
  match j with
  | .obj fs =>
    match fs.find? (fun p => p.1 == k) with
    | some p => .ok p.2
    | none => .ok dflt
  | _ => .error ()

/-- Python truthiness of a decoded JSON value. -/
def pyTruthy : Json → Bool
  | .null => false
  | .bool b => b
  | .num n => n ≠ 0
  | .str s => !s.isEmpty
  | .arr xs => !xs.isEmpty
  | .obj fs => !fs.isEmpty

/-- Python `for x in v` on a decoded JSON value: lists iterate elements,
strings iterate one-character strings, dicts iterate keys; other values
raise `TypeError`. -/
def pyIter : Json → Except Unit (List Json)
  | .arr xs => .ok xs
  | .str s => .ok (s.map (fun c => Json.str [c]))
  | .obj fs => .ok (fs.map (fun p => Json.str p.1))
  | _ => .error ()

/-- Decimal representation of an integer. -/
def intChars (n : Int) : Str :=
  if n < 0 then Char.ofNat 45 :: natChars n.natAbs else natChars n.natAbs

/-- Python `int(x)` on a decoded JSON value (string form: optional sign and
digits after stripping whitespace; other non-numeric values raise). -/
def pyIntOfStr (s : Str) : Except Unit Int :=
  let t := pyStrip s
  match t with
  | c :: rest =>
    if c = Char.ofNat 45 then
      if allDigits rest then .ok (-(digitsVal rest : Int)) else .error ()
    else if c = Char.ofNat 43 then
      if allDigits rest then .ok (digitsVal rest : Int) else .error ()
    else if allDigits t then .ok (digitsVal t : Int) else .error ()
  | [] => .error ()

/-- Python `int(v)` on a decoded JSON value. -/
def jsonToInt : Json → Except Unit Int
  | .num n => .ok n
  | .bool b => .ok (if b then 1 else 0)
  | .str s => pyIntOfStr s
  | _ => .error ()

/-- Python `repr` of a decoded JSON value, fuel-bounded in nesting depth
(only reachable through `str()` fallbacks that no claim exercises). -/
def pyReprAux : Nat → Json → Str
  | _, .null => chars ("None")
  | _, .bool b => if b then chars ("True") else chars ("False")
  | _, .num n => intChars n
  | _, .str s => Char.ofNat 39 :: s ++ [Char.ofNat 39]
  | 0, _ => []
  | fuel + 1, .arr xs =>
    Char.ofNat 91 :: joinWith (chars (", ")) (xs.map (pyReprAux fuel)) ++ [Char.ofNat 93]
  | fuel + 1, .obj fs =>
    Char.ofNat 123 ::
      joinWith (chars (", "))
        (fs.map (fun p => Char.ofNat 39 :: p.1 ++ [Char.ofNat 39] ++ chars (": ")
          ++ pyReprAux fuel p.2)) ++ [Char.ofNat 125]

/-- Python `str(v)` on a decoded JSON value. -/
def pyStrOfJson (j : Json) : Str :=
  match j with
  | .str s => s
  | _ => pyReprAux 100 j

/- ### `summarization/action_items_extractor.py` -/

/-- A normalized action item as produced by the extractor (a Python dict with
keys `task`, `owner`, `due_date`, `priority`). -/
structure ActionItemD where
  task : Str
  owner : Str
  due_date : Option Str
  priority : Str
deriving DecidableEq, Repr

/-- `_calculate_default_due_date`: call date plus 7 days; invalid call dates
fall back to `datetime.utcnow()` (`today`, passed as the clock). -/
def calculate_default_due_date (callDate : Str) (today : Nat) : Str :=
  formatYmd ((parseYmd callDate).getD today + 7)

/-- The leftmost match of `re.search(r'(\d+)\s*day', s)`, returning the value
of the digit group. -/
def findDaysMatch (s : Str) : Option Nat :=
  ((List.range s.length).find? (fun i =>
      let t := s.drop i
      (t.headD (Char.ofNat 0)).isDigit &&
        pyStartsWith ((t.dropWhile Char.isDigit).dropWhile Char.isWhitespace)
          (chars ("day")))).map
    (fun i => digitsVal ((s.drop i).takeWhile Char.isDigit))

/-- `_parse_due_date`: resolve an extracted due-date value against the call
date (`today` is the `datetime.utcnow()` fallback for unparsable call dates). -/
def parse_due_date (dd : Json) (callDate : Str) (today : Nat) : Option Str :=
  match dd with
  | .null => none
  | _ =>
    let s := pyStrip (pyLower (pyStrOfJson dd))
    if s = chars ("null") || s = chars ("none") || s = chars ("n/a") || s = [] then
      none
    else if (parseYmd s).isSome then
      some s
    else
      let base := (parseYmd callDate).getD today
      if pyContains s (chars ("today")) then some (formatYmd base)
      else if pyContains s (chars ("tomorrow")) then some (formatYmd (base + 1))
      else if pyContains s (chars ("next week")) then some (formatYmd (base + 7))
      else if pyContains s (chars ("next month")) then some (formatYmd (base + 30))
      else if pyContains s (chars ("friday")) then
        let k := (4 + 7 - pyWeekday base) % 7
        some (formatYmd (base + (if k = 0 then 7 else k)))
      else if pyContains s (chars ("monday")) then
        let k := (7 - pyWeekday base) % 7
        some (formatYmd (base + (if k = 0 then 7 else k)))
      else
        match findDaysMatch s with
        | some n => some (formatYmd (base + n))
        | none => none

/-- Python `v.strip()` after `d.get(k, dflt)` where the default is a string:
raises unless the retrieved value is a string. -/
def getStrField (j : Json) (k : Str) (dflt : Str) : Except Unit Str := do
  match ← jGetE j k (Json.str dflt) with
  | .str s => .ok s
  | _ => .error ()

/-- `_normalize_action_item`: coerce one raw item (string or dict) into the
normalized shape; non-dict non-string items and empty tasks yield `None`. -/
def normalize_action_item (item : Json) (callDate : Str) (today : Nat) :
    Except Unit (Option ActionItemD) :=
  match item with
  | .str s =>
    .ok (some { task := s, owner := chars ("Seller"),
                due_date := some (calculate_default_due_date callDate today),
                priority := chars ("medium") })
  | .obj _ => do
    let task := pyStrip (← getStrField item (chars ("task")) (chars ("")))
    if task = [] then
      .ok none
    else
      let owner := pyStrip (← getStrField item (chars ("owner")) (chars ("Seller")))
      let owner :=
        if [chars ("me"), chars ("i"), chars ("we"), chars ("us"),
            chars ("our team")].contains (pyLower owner) then
          chars ("Seller")
        else owner
      let dd ← jGetE item (chars ("due_date")) Json.null
      let due := if pyTruthy dd then parse_due_date dd callDate today else none
      let priority := pyLower (← getStrField item (chars ("priority")) (chars ("medium")))
      let priority :=
        if [chars ("high"), chars ("medium"), chars ("low")].contains priority then
          priority
        else chars ("medium")
      .ok (some { task := task, owner := owner, due_date := due, priority := priority })
  | _ => .ok none

/-- The commitment-indicator phrases scanned by the text fallback. -/
def indicators : List Str :=
  [chars ("will send"), chars ("will provide"), chars ("follow up"),
   chars ("schedule"), chars ("send you"), chars ("get back to"),
   chars ("prepare"), chars ("create"), chars ("draft"), chars ("review"),
   chars ("action item"), chars ("next step"), chars ("to do"), chars ("need to")]

/-- One line of the text fallback: if any indicator occurs in the lowered
line, strip bullets and produce a task of more than 10 characters. -/
def candidateOfLine (callDate : Str) (today : Nat) (line : Str) : Option ActionItemD :=
  let lower := pyLower line
  if indicators.any (fun ind => pyContains lower ind) then
    let task := pyStrip line
    let task :=
      if pyStartsWith task (chars ("-")) || pyStartsWith task (chars ("â€¢")) then
        pyStrip (task.drop 1)
      else task
    let task := if pyStartsWith task (chars ("*")) then pyStrip (task.drop 1) else task
    if 10 < task.length then
      some { task := task.take 200, owner := chars ("Seller"),
             due_date := some (calculate_default_due_date callDate today),
             priority := chars ("medium") }
    else none
  else none

/-- Deduplication by case-insensitive 50-character task prefix, keeping the
first occurrence of each key. -/
def dedupByKey (seen : List Str) : List ActionItemD → List ActionItemD
  | [] => []
  | it :: rest =>
    let key := (pyLower it.task).take 50
    if seen.contains key then dedupByKey seen rest
    else it :: dedupByKey (key :: seen) rest

/-- `_extract_action_items_from_text`: fallback extractor when JSON parsing
fails — scan lines for indicators, dedup, keep at most 10. -/
def extract_action_items_from_text (t callDate : Str) (today : Nat) : List ActionItemD :=
  (dedupByKey [] ((splitLines t).filterMap (candidateOfLine callDate today))).take 10

/-- `_generate_default_action_item`: the single default follow-up task, due
7 days from `datetime.utcnow()` (the `today` clock). -/
def generate_default_action_item (accountName : Str) (today : Nat) : List ActionItemD :=
  [{ task := chars ("Follow up with ") ++ accountName ++ chars (" regarding next steps"),
     owner := chars ("Seller"), due_date := some (formatYmd (today + 7)),
     priority := chars ("medium") }]

/-- Markdown fence markers recognised by the payload isolation step. -/
def fenceJson : Str := chars ("```json")

/-- The bare markdown fence. -/
def fence : Str := chars ("```")

/-- Single opening brace (written via its code point per the embedding of
Python string literals). -/
def openBrace : Str := [Char.ofNat 123]

/-- Brace-depth scan from an opening brace: relative end offset of the
matching close, if the depth ever returns to zero. -/
def braceSpan : Str → Nat → Nat → Option Nat
  | [], _, _ => none
  | c :: rest, i, depth =>
    if c = Char.ofNat 123 then braceSpan rest (i + 1) (depth + 1)
    else if c = Char.ofNat 125 then
      if depth = 1 then some (i + 1) else braceSpan rest (i + 1) (depth - 1)
    else braceSpan rest (i + 1) depth

/-- The JSON payload isolation shared verbatim by `_parse_summary_response`
and `_parse_action_items_response`: strip a markdown code fence if present
(`.index` raising `ValueError` when the closing fence is missing), then
narrow to the first brace-balanced object (empty when never balanced). -/
def extractJsonPayload (t : Str) : Except Unit Str := do
  let t ←
    if pyContains t fenceJson then
      let js := (pyFind t fenceJson).getD 0 + 7
      match pyFind (t.drop js) fence with
      | none => .error ()
      | some k => pure (pyStrip ((t.drop js).take k))
    else if pyContains t fence then
      let js := (pyFind t fence).getD 0 + 3
      match pyFind (t.drop js) fence with
      | none => .error ()
      | some k => pure (pyStrip ((t.drop js).take k))
    else pure t
  if pyContains t openBrace then
    let start := (pyFind t openBrace).getD 0
    let rel := (braceSpan (t.drop start) 0 0).getD 0
    pure ((t.drop start).take rel)
  else
    pure t

/-- Normalize a list of raw items in order, dropping `None`s; an exception in
any normalization aborts the whole parse. -/
def normalizeItems (callDate : Str) (today : Nat) :
    List Json → Except Unit (List ActionItemD)
  | [] => .ok []
  | j :: rest => do
    let o ← normalize_action_item j callDate today
    let restN ← normalizeItems callDate today rest
    match o with
    | none => .ok restN
    | some it => .ok (it :: restN)

/-- `_parse_action_items_response`: isolate the JSON payload, decode it with
the `loads` oracle, and normalize `action_items`; on `JSONDecodeError` fall
back to the line-oriented text extractor (applied to the narrowed payload). -/
def parse_action_items_response (loads : Str → Option Json) (txt callDate : Str)
    (today : Nat) : Except Unit (List ActionItemD) := do
  let t ← extractJsonPayload txt
  match loads t with
  | none => .ok (extract_action_items_from_text t callDate today)
  | some j => do
    let raw ← jGetE j (chars ("action_items")) (Json.arr [])
    let items ← pyIter raw
    normalizeItems callDate today items

/-- The call-date defaulting of `extract_action_items`
(`if not call_date: call_date = datetime.utcnow().strftime("%Y-%m-%d")`). -/
def resolveCallDate (callDate : Option Str) (today : Nat) : Str :=
  match callDate with
  | none => formatYmd today
  | some s => if s = [] then formatYmd today else s

/-- `extract_action_items`: the entry point. The LLM response is the
`llmResponse` oracle (`none` models `llm.invoke` raising); `today` is the
`datetime.utcnow()` clock; the `seller_name` parameter only feeds the prompt
text and is omitted. -/
def extract_action_items (loads : Str → Option Json) (today : Nat)
    (transcript accountName : Str) (callDate : Option Str)
    (llmResponse : Option Str) : List ActionItemD :=
  if transcript = [] || (pyStrip transcript).length < 50 then
    generate_default_action_item accountName today
  else
    let cd := resolveCallDate callDate today
    match llmResponse with
    | none => generate_default_action_item accountName today
    | some txt =>
      match parse_action_items_response loads txt cd today with
      | .error _ => generate_default_action_item accountName today
      | .ok items =>
        let items :=
          if items = [] then generate_default_action_item accountName today else items
        items.take 10

/- ### `summarization/call_summary.py` -/

/-- A normalized pain point (`description`/`severity`/`context` dict). Values
coming out of `json.loads` are kept as raw JSON, since Python performs no
coercion on them. -/
structure PainPointD where
  description : Json
  severity : Json
  context : Json

/-- A normalized objection (`description`/`category`/`response_suggested`). -/
structure ObjectionD where
  description : Json
  category : Json
  response_suggested : Json

/-- The structured summary dict produced by `_parse_summary_response` /
`_parse_text_summary` (without the `action_items` key, added later). -/
structure SummaryD where
  executive_summary : Json
  key_points : Json
  pain_points : List PainPointD
  objections : List ObjectionD
  next_steps : Json
  deal_health_score : Int
  deal_health_reason : Json

/-- The full result of `generate_call_summary`: the summary dict plus its
`action_items` entry. -/
structure GenSummary where
  core : SummaryD
  action_items : List ActionItemD

/-- Total dict lookup with default, for values already known to be dicts. -/
def jGetD (j : Json) (k : Str) (dflt : Json) : Json :=
  match j with
  | .obj fs =>
    match fs.find? (fun p => p.1 == k) with
    | some p => p.2
    | none => dflt
  | _ => dflt

/-- `_normalize_pain_points`: bare strings and dicts are coerced; any other
entry is silently skipped; iterating a non-list raw value follows Python
iteration (strings/dicts iterate, scalars raise). -/
def normalize_pain_points (v : Json) : Except Unit (List PainPointD) := do
  let pps ← pyIter v
  .ok (pps.filterMap (fun pp =>
    match pp with
    | .str s =>
      some { description := Json.str s, severity := Json.str (chars ("medium")),
             context := Json.null }
    | .obj _ =>
      some { description := jGetD pp (chars ("description")) (Json.str (pyStrOfJson pp)),
             severity := jGetD pp (chars ("severity")) (Json.str (chars ("medium"))),
             context := jGetD pp (chars ("context")) Json.null }
    | _ => none))

/-- `_normalize_objections`: same coercion pattern as pain points. -/
def normalize_objections (v : Json) : Except Unit (List ObjectionD) := do
  let obs ← pyIter v
  .ok (obs.filterMap (fun ob =>
    match ob with
    | .str s =>
      some { description := Json.str s, category := Json.str (chars ("general")),
             response_suggested := Json.null }
    | .obj _ =>
      some { description := jGetD ob (chars ("description")) (Json.str (pyStrOfJson ob)),
             category := jGetD ob (chars ("category")) (Json.str (chars ("general"))),
             response_suggested := jGetD ob (chars ("response_suggested")) Json.null }
    | _ => none))

/-- Sections recognised by the text-fallback summary parser. -/
inductive ParseSection where
  | exec | key | pain | obj | next | health
deriving DecidableEq, Repr

/-- First maximal digit run in a line (`re.findall(r'\d+', line)[0]`). -/
def findFirstNumber (s : Str) : Option Nat :=
  let t := s.dropWhile (fun c => !c.isDigit)
  if t.isEmpty then none else some (digitsVal (t.takeWhile Char.isDigit))

/-- Initial accumulator of `_parse_text_summary`. -/
def textSummaryInit : SummaryD :=
  { executive_summary := Json.str []
    key_points := Json.arr []
    pain_points := []
    objections := []
    next_steps := Json.str []
    deal_health_score := 5
    deal_health_reason := Json.str (chars ("Unable to parse structured response")) }

/-- Append to a JSON array (the `key_points` list of the text parser). -/
def jArrAppend (j x : Json) : Json :=
  match j with
  | .arr xs => .arr (xs ++ [x])
  | _ => j

/-- Leading bullet-marker stripping of `_parse_text_summary` (a single
conditional with three alternatives, unlike the extractor's two). -/
def bulletStrip (line : Str) : Str :=
  if pyStartsWith line (chars ("-")) || pyStartsWith line (chars ("â€¢"))
      || pyStartsWith line (chars ("*")) then
    pyStrip (line.drop 1)
  else line

/-- The section-header detection chain of `_parse_text_summary`, in source
order. -/
def headerSection (lower : Str) : Option ParseSection :=
  if pyContains lower (chars ("executive summary"))
      || pyContains lower (chars ("summary:")) then some .exec
  else if pyContains lower (chars ("key point"))
      || pyContains lower (chars ("discussion point")) then some .key
  else if pyContains lower (chars ("pain point")) then some .pain
  else if pyContains lower (chars ("objection")) then some .obj
  else if pyContains lower (chars ("next step")) then some .next
  else if pyContains lower (chars ("health")) && pyContains lower (chars ("score")) then
    some .health
  else none

/-- Assignment of a content line to the active section; in the health
section the first number of the line is clamped into `[1, 10]` and the line
becomes the reason. -/
def assignToSection (sec : ParseSection) (line : Str) (s : SummaryD) : SummaryD :=
  match sec with
  | .exec => { s with executive_summary := Json.str line }
  | .key => { s with key_points := jArrAppend s.key_points (Json.str line) }
  | .pain =>
    { s with pain_points := s.pain_points ++
        [{ description := Json.str line, severity := Json.str (chars ("medium")),
           context := Json.null }] }
  | .obj =>
    { s with objections := s.objections ++
        [{ description := Json.str line, category := Json.str (chars ("general")),
           response_suggested := Json.null }] }
  | .next => { s with next_steps := Json.str line }
  | .health =>
    let s :=
      match findFirstNumber line with
      | some n => { s with deal_health_score := min 10 (max 1 (n : Int)) }
      | none => s
    { s with deal_health_reason := Json.str line }

/-- One line of `_parse_text_summary`: empty lines are skipped, section
headers switch the active section, other lines are assigned to the active
section (after bullet stripping), and lines before any header are ignored. -/
def parse_text_summary_step (st : Option ParseSection × SummaryD) (rawLine : Str) :
    Option ParseSection × SummaryD :=
  let line := pyStrip rawLine
  if line = [] then st
  else
    match headerSection (pyLower line) with
    | some sec => (some sec, st.2)
    | none =>
      match st.1 with
      | none => st
      | some sec => (st.1, assignToSection sec (bulletStrip line) st.2)

/-- `_parse_text_summary`: fallback line-oriented parser for non-JSON model
output. -/
def parse_text_summary (t : Str) : SummaryD :=
  ((splitLines (pyStrip t)).foldl parse_text_summary_step (none, textSummaryInit)).2

/-- `_parse_summary_response`: isolate the JSON payload, decode with the
`loads` oracle, normalize the structure and clamp the health score into
`[1, 10]`; `JSONDecodeError` falls back to the text parser; any other
exception (non-dict payload, non-numeric score, …) propagates. -/
def parse_summary_response (loads : Str → Option Json) (txt : Str) :
    Except Unit SummaryD := do
  let t ← extractJsonPayload txt
  match loads t with
  | none => .ok (parse_text_summary t)
  | some j => do
    let es ← jGetE j (chars ("executive_summary")) (Json.str [])
    let kp ← jGetE j (chars ("key_points")) (Json.arr [])
    let pp ← normalize_pain_points (← jGetE j (chars ("pain_points")) (Json.arr []))
    let ob ← normalize_objections (← jGetE j (chars ("objections")) (Json.arr []))
    let ns ← jGetE j (chars ("next_steps")) (Json.str [])
    let sc ← jsonToInt (← jGetE j (chars ("deal_health_score")) (Json.num 5))
    let reason ← jGetE j (chars ("deal_health_reason")) (Json.str [])
    .ok { executive_summary := es, key_points := kp, pain_points := pp,
          objections := ob, next_steps := ns,
          deal_health_score := min 10 (max 1 sc), deal_health_reason := reason }

/-- `_generate_empty_summary`: the deterministic insufficient-data summary
returned by the short-transcript short-circuit. Its `action_items` list is
empty. -/
def generate_empty_summary (accountName : Str) : GenSummary :=
  { core :=
      { executive_summary := Json.str (chars ("Call with ") ++ accountName
          ++ chars (" - transcript too short for analysis."))
        key_points := Json.arr [Json.str (chars ("Insufficient transcript data for analysis"))]
        pain_points := []
        objections := []
        next_steps := Json.str (chars ("Review call recording if available"))
        deal_health_score := 5
        deal_health_reason := Json.str (chars ("Unable to assess - insufficient data")) }
    action_items := [] }

/-- First-occurrence deduplication of strings (CPython set iteration order is
unspecified; it is modelled as insertion order — no claim depends on it). -/
def dedupStr (seen : List Str) : List Str → List Str
  | [] => []
  | s :: rest =>
    if seen.contains s then dedupStr seen rest
    else s :: dedupStr (s :: seen) rest

/-- Speakers found by `_generate_fallback_summary`: prefix of each line with
a colon, when non-empty and shorter than 30 characters. -/
def fallbackSpeakers (transcript : Str) : List Str :=
  dedupStr [] ((splitLines transcript).filterMap (fun line =>
    if pyContains line (chars (":")) then
      let speaker := pyStrip ((splitOnChar (Char.ofNat 58) line).headD [])
      if speaker ≠ [] && speaker.length < 30 then some speaker else none
    else none))

/-- Python `len(s.split())`: number of maximal non-whitespace runs. -/
def wordCount (s : Str) : Nat :=
  ((List.range s.length).filter (fun i =>
    !(s.getD i (Char.ofNat 32)).isWhitespace &&
      (i = 0 || (s.getD (i - 1) (Char.ofNat 32)).isWhitespace))).length

/-- `_generate_fallback_summary`: basic text analysis used when the summary
LLM call (or its parse) raises. -/
def generate_fallback_summary (transcript accountName : Str) : GenSummary :=
  let speakers := fallbackSpeakers transcript
  let wc := wordCount transcript
  { core :=
      { executive_summary := Json.str (chars ("Call with ") ++ accountName
          ++ chars (" involving ") ++ natChars speakers.length
          ++ chars (" participants. Approximately ") ++ natChars wc
          ++ chars (" words exchanged."))
        key_points := Json.arr
          [Json.str (chars ("Participants: ") ++ joinWith (chars (", ")) speakers),
           Json.str (chars ("Transcript length: ") ++ natChars wc ++ chars (" words")),
           Json.str (chars ("Manual review recommended for detailed analysis"))]
        pain_points := []
        objections := []
        next_steps := Json.str (chars ("Review transcript manually and extract key insights"))
        deal_health_score := 5
        deal_health_reason := Json.str (chars ("Automated analysis failed - manual review recommended")) }
    action_items :=
      [{ task := chars ("Review call transcript with ") ++ accountName,
         owner := chars ("Seller"), due_date := none, priority := chars ("medium") }] }

/-- `generate_call_summary`: short transcripts (under 50 characters after
stripping) short-circuit to the insufficient-data summary without invoking
the model; otherwise the summary LLM response (`llmSummary` oracle, `none`
models `llm.invoke` raising) is parsed and action items are extracted with
their own LLM call (`llmItems` oracle). Metadata parameters that only feed
the prompt text are omitted. -/
def generate_call_summary (loads : Str → Option Json) (today : Nat)
    (transcript accountName : Str) (llmSummary llmItems : Option Str) : GenSummary :=
  if transcript = [] || (pyStrip transcript).length < 50 then
    generate_empty_summary accountName
  else
    match llmSummary with
    | none => generate_fallback_summary transcript accountName
    | some txt =>
      match parse_summary_response loads txt with
      | .error _ => generate_fallback_summary transcript accountName
      | .ok core =>
        { core := core,
          action_items := extract_action_items loads today transcript accountName none llmItems }

/- ### `storage/call_repository.py`

UUIDs are modelled as naturals; `uuid4()` is a `freshId` parameter supplied at
each creation (uuid4 values are fresh random identifiers, so call sites state
distinctness hypotheses explicitly). `datetime.utcnow()` is a `now` clock in
seconds. JSON-file persistence mirrors the in-memory cache and is not
modelled separately; the summary/action-item tables are not needed by the
claims under verification. -/

/-- Call lifecycle status (`CallStatus`). -/
inductive CallStatus where
  | in_progress | ended | summarized | error
deriving DecidableEq, Repr

/-- A stored `Call` record. -/
structure CallRec where
  id : Nat
  deal_id : Int
  account_name : Str
  contact_name : Option Str
  started_at : Nat
  ended_at : Option Nat
  duration_seconds : Option Int
  status : CallStatus
  created_at : Nat
  updated_at : Nat
deriving DecidableEq, Repr

/-- A stored `TranscriptChunk` record. Offsets are seconds from call start
(Python floats, modelled as rationals). -/
structure ChunkRec where
  call_id : Nat
  speaker : Str
  text : Str
  start_time : Rat
  end_time : Rat
  confidence : Rat
  is_final : Bool
deriving DecidableEq, Repr

/-- The repository state: the calls and transcripts tables. -/
structure RepoState where
  calls : List CallRec
  transcripts : List ChunkRec
deriving DecidableEq, Repr

/-- The empty repository. -/
def emptyRepo : RepoState := { calls := [], transcripts := [] }

namespace CallRepository

/-- `create_call`: append a new record with a fresh uuid4 id (`freshId`),
status `in_progress` and the current start timestamp. The requested
websocket call id is NOT used — `Call` generates its own id. -/
def create_call (s : RepoState) (dealId : Int) (accountName : Str)
    (contactName : Option Str) (freshId now : Nat) : CallRec × RepoState :=
  let call : CallRec :=
    { id := freshId, deal_id := dealId, account_name := accountName,
      contact_name := contactName, started_at := now, ended_at := none,
      duration_seconds := none, status := .in_progress,
      created_at := now, updated_at := now }
  (call, { s with calls := s.calls ++ [call] })

/-- `get_call`: first record whose id matches. -/
def get_call (s : RepoState) (callId : Nat) : Option CallRec :=
  s.calls.find? (fun c => c.id == callId)

/-- Apply an update to the first matching record (`update_call`'s loop),
also refreshing `updated_at`. -/
def updateCalls (callId : Nat) (upd : CallRec → CallRec) (now : Nat) :
    List CallRec → Option CallRec × List CallRec
  | [] => (none, [])
  | c :: rest =>
    if c.id == callId then
      let c' := { upd c with updated_at := now }
      (some c', c' :: rest)
    else
      let r := updateCalls callId upd now rest
      (r.1, c :: r.2)

/-- `update_call`: update the first matching record, returning it (`none`
when the call does not exist). -/
def update_call (s : RepoState) (callId : Nat) (upd : CallRec → CallRec)
    (now : Nat) : Option CallRec × RepoState :=
  let r := updateCalls callId upd now s.calls
  (r.1, { s with calls := r.2 })

/-- `end_call`: mark an existing call as ended, recomputing `ended_at` and
`duration_seconds` from the clock regardless of the current status; `none`
when the call does not exist. -/
def end_call (s : RepoState) (callId : Nat) (now : Nat) :
    Option CallRec × RepoState :=
  match get_call s callId with
  | none => (none, s)
  | some c =>
    update_call s callId
      (fun c' =>
        { c' with
          ended_at := some now
          duration_seconds := some ((now : Int) - (c.started_at : Int))
          status := .ended }) now

/-- `set_call_summarized`. -/
def set_call_summarized (s : RepoState) (callId now : Nat) :
    Option CallRec × RepoState :=
  update_call s callId (fun c => { c with status := .summarized }) now

/-- `add_transcript_chunk`: append the chunk to the transcripts table. -/
def add_transcript_chunk (s : RepoState) (ch : ChunkRec) : RepoState :=
  { s with transcripts := s.transcripts ++ [ch] }

/-- Stable insertion of a chunk after all chunks with smaller-or-equal start
time (Python `list.sort` is stable). -/
def insertByStart (c : ChunkRec) : List ChunkRec → List ChunkRec
  | [] => [c]
  | y :: ys =>
    if y.start_time ≤ c.start_time then y :: insertByStart c ys
    else c :: y :: ys

/-- Stable sort by start time. -/
def sortByStart (l : List ChunkRec) : List ChunkRec :=
  l.foldl (fun acc c => insertByStart c acc) []

/-- `get_transcript`: the call's chunks, optionally filtered by time range,
sorted by start time. No `is_final` filtering happens here. -/
def get_transcript (s : RepoState) (callId : Nat)
    (startTime endTime : Option Rat) : List ChunkRec :=
  let cs := s.transcripts.filter (fun t => t.call_id == callId)
  let cs :=
    match startTime with
    | some st => cs.filter (fun c => st ≤ c.start_time)
    | none => cs
  let cs :=
    match endTime with
    | some et => cs.filter (fun c => c.end_time ≤ et)
    | none => cs
  sortByStart cs

/-- One `"speaker: text"` line. -/
def chunkLine (c : ChunkRec) : Str := c.speaker ++ chars (": ") ++ c.text

/-- `get_full_transcript_text`: newline-join of `"speaker: text"` lines over
`get_transcript` (all stored chunks of the call, final or not). -/
def get_full_transcript_text (s : RepoState) (callId : Nat) : Str :=
  joinLines ((get_transcript s callId none none).map chunkLine)

end CallRepository

/- ### `websocket/live_call_handler.py` (start-call path) -/

/-- Server-to-client events emitted by the handler (only the constructors the
claims need). -/
inductive WsEvent where
  | status_update (status : Str) (message : Str)
deriving DecidableEq, Repr

namespace LiveCallHandler

/-- `_handle_start_call`: if a call with the websocket's id exists and is
`in_progress`, only re-confirm connectivity; otherwise create a new record
(whose id is a fresh uuid4, not the websocket id — the comment in the source
says "Override the auto-generated ID with the provided one" but no override
happens). The Redis side-store writes (`set_call_metadata`,
`set_call_status`) touch only the cache and are omitted. -/
def handle_start_call (s : RepoState) (callId : Nat) (dealId : Int)
    (accountName : Str) (contactName : Option Str) (freshId now : Nat) :
    RepoState × List WsEvent :=
  let isReconnect :=
    match CallRepository.get_call s callId with
    | some c => c.status == CallStatus.in_progress
    | none => false
  if isReconnect then
    (s, [.status_update (chars ("connected")) (chars ("Reconnected to existing call"))])
  else
    let r := CallRepository.create_call s dealId accountName contactName freshId now
    (r.2, [.status_update (chars ("connected")) (chars ("Call started. Ready to receive audio."))])

end LiveCallHandler

/- ### `storage/redis_client.py` (transcript buffer) -/

/-- A chunk dict stored in the per-call transcript buffer. -/
structure BChunk where
  speaker : Str
  text : Str
  start_time : Rat
  end_time : Rat
  is_final : Bool
deriving DecidableEq, Repr

namespace RedisClient

/-- `add_transcript_chunk`: `rpush` then `ltrim(key, -max_chunks, -1)` —
append and keep only the last `maxChunks` entries. -/
def add_transcript_chunk (maxChunks : Nat) (l : List BChunk) (c : BChunk) :
    List BChunk :=
  let l' := l ++ [c]
  l'.drop (l'.length - maxChunks)

/-- The buffer contents after a sequence of appends starting from empty. -/
def bufferOf (maxChunks : Nat) (cs : List BChunk) : List BChunk :=
  cs.foldl (add_transcript_chunk maxChunks) []

/-- `max(chunk.get("end_time", 0) for chunk in chunks)` over a non-empty
buffer. -/
def latestEnd : List BChunk → Rat
  | [] => 0
  | c :: cs => (cs.map BChunk.end_time).foldl max c.end_time

/-- One `"speaker: text"` line of the windowed text. -/
def bchunkLine (c : BChunk) : Str := c.speaker ++ chars (": ") ++ c.text

/-- `get_recent_transcript_text`: empty buffer yields the empty string;
otherwise join the lines of the chunks whose start offset is at least
(latest end offset − window). -/
def get_recent_transcript_text (l : List BChunk) (w : Rat) : Str :=
  match l with
  | [] => []
  | _ =>
    let cutoff := latestEnd l - w
    joinLines ((l.filter (fun c => cutoff ≤ c.start_time)).map bchunkLine)

/-- Modelled from the spec: "`recent(window_seconds)` returns chunks whose
start offset is ≥ (latest end offset − window_seconds)" — the windowed
selection in the claim's words, to be compared with the code's query. -/
def recentFilter (l : List BChunk) (w : Rat) : List BChunk :=
  l.filter (fun c => latestEnd l - w ≤ c.start_time)

end RedisClient

/- ### `websocket/connection_manager.py` -/

/-- A broadcast message envelope: opaque payload plus the optional
`timestamp` key the multiplexer fills in. -/
structure WsMsg where
  payload : Str
  timestamp : Option Nat
deriving DecidableEq, Repr

/-- Connection-manager state: per-call connection lists plus the global
connection set (connections are modelled as naturals). -/
structure CMState where
  active : List (Nat × List Nat)
  allConns : List Nat
deriving DecidableEq, Repr

namespace ConnectionManager

/-- `_active_connections.get(call_id)`. -/
def lookupActive (st : CMState) (callId : Nat) : Option (List Nat) :=
  (st.active.find? (fun p => p.1 == callId)).map (fun p => p.2)

/-- Replace the connection list of a call. -/
def updActive (a : List (Nat × List Nat)) (k : Nat) (v : List Nat) :
    List (Nat × List Nat) :=
  a.map (fun p => if p.1 == k then (k, v) else p)

/-- `disconnect`: remove the connection from the call's list (first
occurrence, when present), delete the per-call entry when it becomes empty,
and discard the connection from the global set. -/
def disconnect (st : CMState) (conn callId : Nat) : CMState :=
  let st :=
    match lookupActive st callId with
    | none => st
    | some l =>
      let l' := l.erase conn
      if l' = [] then
        { st with active := st.active.filter (fun p => p.1 != callId) }
      else
        { st with active := updActive st.active callId l' }
  { st with allConns := st.allConns.filter (fun c => c != conn) }

/-- `send_json` outcomes are an oracle `sendOk`; `broadcast_to_call` catches
each failed send (so it never raises), delivers to every succeeding
connection in order, and disconnects the failed ones afterwards. The
timestamp is added when absent. Returns the new state and the deliveries. -/
def broadcast_to_call (sendOk : Nat → Bool) (st : CMState) (m : WsMsg)
    (callId now : Nat) : CMState × List (Nat × WsMsg) :=
  match lookupActive st callId with
  | none => (st, [])
  | some conns =>
    let m :=
      match m.timestamp with
      | none => { m with timestamp := some now }
      | some _ => m
    let delivered := (conns.filter sendOk).map (fun c => (c, m))
    let failed := conns.filter (fun c => !sendOk c)
    (failed.foldl (fun s c => disconnect s c callId) st, delivered)

/-- `get_connections_for_call`: the call's list, defaulting to empty. -/
def get_connections_for_call (st : CMState) (callId : Nat) : List Nat :=
  (lookupActive st callId).getD []

/-- The timestamp fill-in applied by `broadcast_to_call`. -/
def fillTimestamp (m : WsMsg) (now : Nat) : WsMsg :=
  match m.timestamp with
  | none => { m with timestamp := some now }
  | some _ => m

end ConnectionManager

/- ### Spec-side definitions and concrete fixtures -/

/-- Modelled from the spec: "the next Friday strictly after the call date" —
the smallest day after `d` whose Python weekday is 4. -/
def nextFridayAfter (d : Nat) : Nat :=
  let k := (4 + 7 - pyWeekday d) % 7
  d + (if k = 0 then 7 else k)

/-- Modelled from the spec: "the full transcript is the ordered concatenation
of `"speaker: text"` lines for chunks whose finality flag is true" — the
claim's version of the full-transcript query, filtering on `is_final`. -/
def spec_full_transcript_text (s : RepoState) (callId : Nat) : Str :=
  joinLines ((CallRepository.sortByStart
    ((s.transcripts.filter (fun t => t.call_id == callId)).filter
      (fun t => t.is_final))).map CallRepository.chunkLine)

/-- A 60-character transcript (above the 50-character short-circuit). -/
def transcript60 : Str := List.replicate 60 (Char.ofNat 97)

/-- The spec's probe line for the extraction fallback. -/
def proposalLine : Str := chars ("I will send the proposal by Friday")

/-- A `loads` oracle decoding every payload to `\x7b"action_items": []\x7d`. -/
def loadsEmptyItems : Str → Option Json :=
  fun _ => some (Json.obj [(chars ("action_items"), Json.arr [])])

/-- Repository fixture for C2: one call, already summarized. -/
def repoC2 : RepoState :=
  { calls := [{ id := 1, deal_id := 7, account_name := chars ("Acme"),
                contact_name := none, started_at := 0, ended_at := some 100,
                duration_seconds := some 100, status := .summarized,
                created_at := 0, updated_at := 100 }],
    transcripts := [] }

/-- Repository fixture for C5: one final and one non-final chunk of call 1. -/
def repoC5 : RepoState :=
  { calls := [],
    transcripts :=
      [{ call_id := 1, speaker := chars ("A"), text := chars ("hello"),
         start_time := 0, end_time := 1, confidence := 1, is_final := true },
       { call_id := 1, speaker := chars ("B"), text := chars ("draft"),
         start_time := 2, end_time := 3, confidence := 1, is_final := false }] }

/-- Repository fixture for the C5 witness: both chunks final, out of order. -/
def repoC5W : RepoState :=
  { calls := [],
    transcripts :=
      [{ call_id := 1, speaker := chars ("B"), text := chars ("later"),
         start_time := 2, end_time := 3, confidence := 1, is_final := true },
       { call_id := 1, speaker := chars ("A"), text := chars ("hello"),
         start_time := 0, end_time := 1, confidence := 1, is_final := true }] }

/-- Connection-manager fixture for C8: call 1 has one live (10) and one dead
(20) connection. -/
def cmC8 : CMState :=
  { active := [(1, [10, 20])], allConns := [10, 20] }

/- ### Theorems -/

/-- Claim C1: processing two `start_call` events with the same id should
yield exactly one stored Call record. The code violates this: `create_call`
generates a fresh uuid4 id and ignores the websocket call id (despite the
source comment "Override the auto-generated ID with the provided one"), so
the idempotence check `get_call(call_id)` never sees the record created by
the first start, and a second record is created: starting from an empty
repository, two starts leave two Call records. -/
theorem start_call_duplicates_records (callId : Nat) (dealId : Int)
    (accountName : Str) (freshId1 freshId2 now1 now2 : Nat)
    (h : freshId1 ≠ callId) :
    ((LiveCallHandler.handle_start_call
        (LiveCallHandler.handle_start_call emptyRepo callId dealId accountName
          none freshId1 now1).1
        callId dealId accountName none freshId2 now2).1).calls.length = 2 := by
  have hbeq : (freshId1 == callId) = false := beq_eq_false_iff_ne.mpr h
  simp [LiveCallHandler.handle_start_call, CallRepository.get_call,
        CallRepository.create_call, emptyRepo, hbeq]

/-- Witness for C1 at a concrete input: websocket id 5, fresh uuids 1 and 2. -/
theorem start_call_duplicates_records_witness :
    (1 : Nat) ≠ 5 ∧
    ((LiveCallHandler.handle_start_call
        (LiveCallHandler.handle_start_call emptyRepo 5 7 (chars ("Acme"))
          none 1 100).1
        5 7 (chars ("Acme")) none 2 200).1).calls.length = 2 :=
  ⟨by decide, start_call_duplicates_records 5 7 (chars ("Acme")) 1 2 100 200 (by decide)⟩


/-- The record produced by re-applying the end transition to `c` at time
`now` (what `end_call` writes). -/
def endedRec (c : CallRec) (now : Nat) : CallRec :=
  { c with
    ended_at := some now
    duration_seconds := some ((now : Int) - (c.started_at : Int))
    status := CallStatus.ended
    updated_at := now }

/-- Updating the first matching record: when `find?` locates `c`, the update
returns `upd c` (with refreshed `updated_at`) and the updated list still
finds it first, provided the update preserves the id. -/
theorem updateCalls_spec (callId : Nat) (upd : CallRec → CallRec) (now : Nat)
    (hid : ∀ x, (upd x).id = x.id) :
    ∀ (l : List CallRec) (c : CallRec),
      l.find? (fun x => x.id == callId) = some c →
      (CallRepository.updateCalls callId upd now l).1
          = some { upd c with updated_at := now } ∧
      (CallRepository.updateCalls callId upd now l).2.find?
          (fun x => x.id == callId) = some { upd c with updated_at := now } := by
  intro l
  induction l with
  | nil => intro c hc; simp at hc
  | cons x rest ih =>
    intro c hc
    by_cases hx : (x.id == callId) = true
    · simp only [List.find?_cons, hx] at hc
      cases hc
      refine ⟨by simp [CallRepository.updateCalls, hx], ?_⟩
      have hthis : ((upd x).id == callId) = true := by rw [hid x]; exact hx
      simp [CallRepository.updateCalls, hx, List.find?_cons, hthis]
    · have hx' : (x.id == callId) = false := by simpa using hx
      simp only [List.find?_cons, hx'] at hc
      obtain ⟨h1, h2⟩ := ih c hc
      exact ⟨by simpa [CallRepository.updateCalls, hx'] using h1,
             by simpa [CallRepository.updateCalls, hx', List.find?_cons] using h2⟩

/-- Claim C2 counterexample: `end_call` on an already-summarized call is NOT
a no-op — at the fixture `repoC2` (call 1 summarized, started at 0, ended at
100, duration 100) a later `end_call` at time 200 rewrites status to
`ended`, `ended_at` to 200 and `duration_seconds` to 200. -/
theorem end_call_on_summarized_mutates :
    (CallRepository.get_call repoC2 1).map CallRec.status
        = some CallStatus.summarized ∧
    (CallRepository.get_call (CallRepository.end_call repoC2 1 200).2 1).map
        CallRec.status = some CallStatus.ended ∧
    (CallRepository.get_call (CallRepository.end_call repoC2 1 200).2 1).map
        CallRec.ended_at = some (some 200) ∧
    (CallRepository.get_call (CallRepository.end_call repoC2 1 200).2 1).map
        CallRec.duration_seconds = some (some 200) := by decide

/-- Claim C2 amended: `end_call` on a summarized call is accepted and not
reported as an error, but it is not an idempotent no-op: it re-applies the
end transition, setting status back to `ended` and recomputing `ended_at`
and `duration_seconds` from the current clock. -/
theorem end_call_summarized_reends (s : RepoState) (callId now : Nat)
    (c : CallRec) (hget : CallRepository.get_call s callId = some c)
    (_hst : c.status = CallStatus.summarized) :
    (CallRepository.end_call s callId now).1 = some (endedRec c now) ∧
    CallRepository.get_call (CallRepository.end_call s callId now).2 callId
        = some (endedRec c now) := by
  have hspec := updateCalls_spec callId
    (fun c' =>
      { c' with
        ended_at := some now
        duration_seconds := some ((now : Int) - (c.started_at : Int))
        status := CallStatus.ended }) now (fun x => rfl) s.calls c hget
  constructor
  · simp only [CallRepository.end_call, hget, CallRepository.update_call]
    exact hspec.1
  · simp only [CallRepository.end_call, hget, CallRepository.update_call]
    simpa [CallRepository.get_call] using hspec.2

/-- Witness for C2's amended theorem at the fixture `repoC2`. -/
theorem end_call_summarized_reends_witness :
    (CallRepository.end_call repoC2 1 200).1
        = some { id := 1, deal_id := 7, account_name := chars ("Acme"),
                 contact_name := none, started_at := 0, ended_at := some 200,
                 duration_seconds := some 200, status := CallStatus.ended,
                 created_at := 0, updated_at := 200 } := by
  have h := end_call_summarized_reends repoC2 1 200
    { id := 1, deal_id := 7, account_name := chars ("Acme"),
      contact_name := none, started_at := 0, ended_at := some 100,
      duration_seconds := some 100, status := CallStatus.summarized,
      created_at := 0, updated_at := 100 } (by decide) rfl
  rw [h.1]
  rfl

/-- Claim C3 counterexample: the short-transcript short-circuit of
`generate_call_summary` returns the insufficient-data summary with an EMPTY
action-item list, not the single default follow-up item the claim states
(on transcript "Hi", compared with the default item list, which is
non-empty). -/
theorem short_summary_lacks_default_item :
    (generate_call_summary (fun _ => none) 0 (chars ("Hi")) (chars ("Acme"))
        none none).action_items = [] ∧
    generate_default_action_item (chars ("Acme")) 0 ≠ [] := by
  constructor
  · rfl
  · decide

/-- Claim C3 amended: a transcript under 50 characters after stripping makes
`generate_call_summary` skip model invocation entirely (the result is the
fixed insufficient-data summary, independent of every oracle) — but its
action-item list is EMPTY; the single-default-item behaviour belongs to
`extract_action_items`, which on such a short transcript returns exactly the
default follow-up item without invoking its model. -/
theorem short_transcript_short_circuit (loads loads2 : Str → Option Json)
    (today today2 : Nat) (transcript accountName account2 : Str)
    (llmS llmI llmI2 : Option Str) (cd : Option Str)
    (hshort : transcript = [] ∨ (pyStrip transcript).length < 50) :
    generate_call_summary loads today transcript accountName llmS llmI
        = generate_empty_summary accountName ∧
    (generate_empty_summary accountName).action_items = [] ∧
    extract_action_items loads2 today2 transcript account2 cd llmI2
        = generate_default_action_item account2 today2 := by
  have hb : (decide (transcript = []) || decide ((pyStrip transcript).length < 50))
      = true := by
    rcases hshort with h | h <;> simp [h]
  refine ⟨?_, rfl, ?_⟩
  · simp only [generate_call_summary, hb, if_true]
  · simp only [extract_action_items, hb, if_true]

/-- Witness for C3's amended theorem on the transcript "Hi". -/
theorem short_transcript_short_circuit_witness :
    generate_call_summary (fun _ => none) 3 (chars ("Hi")) (chars ("Acme"))
        none none = generate_empty_summary (chars ("Acme")) ∧
    (generate_empty_summary (chars ("Acme"))).action_items = [] ∧
    extract_action_items (fun _ => none) 3 (chars ("Hi")) (chars ("Acme"))
        none none = generate_default_action_item (chars ("Acme")) 3 :=
  short_transcript_short_circuit (fun _ => none) (fun _ => none) 3 3
    (chars ("Hi")) (chars ("Acme")) (chars ("Acme")) none none none none
    (Or.inr (by decide))

/-- Bind of a successful `Except` computation. -/
theorem except_bind_ok {α β : Type} (a : α) (f : α → Except Unit β) :
    (Except.ok a >>= f) = f a := rfl

/-- Every candidate the text fallback produces carries the default due date
(call date + 7 days) — the fallback never parses "Friday". -/
theorem candidateOfLine_due (callDate : Str) (today : Nat) (line : Str)
    (it : ActionItemD) (h : candidateOfLine callDate today line = some it) :
    it.due_date = some (calculate_default_due_date callDate today) := by
  simp only [candidateOfLine] at h
  split_ifs at h <;> cases h <;> rfl

/-- Deduplication only drops items: membership is preserved backwards. -/
theorem dedupByKey_subset (it : ActionItemD) :
    ∀ (seen : List Str) (l : List ActionItemD), it ∈ dedupByKey seen l → it ∈ l := by
  intro seen l
  induction l generalizing seen with
  | nil => intro h; simp [dedupByKey] at h
  | cons x rest ih =>
    intro h
    simp only [dedupByKey] at h
    split_ifs at h with hk
    · exact List.mem_cons_of_mem x (ih _ h)
    · rcases List.mem_cons.mp h with h | h
      · exact h ▸ List.mem_cons_self x rest
      · exact List.mem_cons_of_mem x (ih _ h)

/-- Claim C4 counterexample: on model output that is exactly the line
"I will send the proposal by Friday" (no JSON), with call date 2026-10-05
(a Monday), the fallback parser produces items — but none is due the next
Friday after the call date (2026-10-09); the produced due date is
2026-10-12, the call date plus 7 days. -/
theorem fallback_due_is_not_next_friday :
    (extract_action_items (fun _ => none) (absDayOfYmd 2026 10 5) transcript60
        (chars ("Acme")) (some (chars ("2026-10-05"))) (some proposalLine)) ≠ []
    ∧ ∀ it ∈ extract_action_items (fun _ => none) (absDayOfYmd 2026 10 5)
          transcript60 (chars ("Acme")) (some (chars ("2026-10-05")))
          (some proposalLine),
        it.due_date ≠ some (formatYmd (nextFridayAfter (absDayOfYmd 2026 10 5))) := by
  decide

/-- Claim C4 amended: when the model output contains no valid JSON (the
`loads` decode of the isolated payload fails) and the payload contains the
line "I will send the proposal by Friday", the fallback parser's candidate
scan yields an item whose task contains "send the proposal" — but its due
date (like that of every item the fallback returns) is the default CALL DATE
PLUS 7 DAYS, not the next Friday strictly after the call date; the candidate
can additionally be dropped by the 50-character dedup key or the 10-item
cap. -/
theorem fallback_proposal_item (loads : Str → Option Json) (today d : Nat)
    (callDate payload txt : Str)
    (hpay : extractJsonPayload txt = .ok payload)
    (hloads : loads payload = none)
    (hline : proposalLine ∈ splitLines payload)
    (hdate : parseYmd callDate = some d) :
    parse_action_items_response loads txt callDate today
        = .ok (extract_action_items_from_text payload callDate today)
    ∧ (∃ it ∈ (splitLines payload).filterMap (candidateOfLine callDate today),
        pyContains it.task (chars ("send the proposal")) = true
        ∧ it.due_date = some (formatYmd (d + 7)))
    ∧ ∀ it ∈ extract_action_items_from_text payload callDate today,
        it.due_date = some (formatYmd (d + 7)) := by
  have hcalc : calculate_default_due_date callDate today = formatYmd (d + 7) := by
    simp [calculate_default_due_date, hdate]
  refine ⟨?_, ?_, ?_⟩
  · simp only [parse_action_items_response, hpay, except_bind_ok, hloads]
  · have hcand : candidateOfLine callDate today proposalLine
        = some { task := proposalLine, owner := chars ("Seller"),
                 due_date := some (calculate_default_due_date callDate today),
                 priority := chars ("medium") } := by rfl
    have htask : pyContains proposalLine (chars ("send the proposal")) = true := by
      decide
    refine ⟨{ task := proposalLine, owner := chars ("Seller"),
              due_date := some (calculate_default_due_date callDate today),
              priority := chars ("medium") },
            List.mem_filterMap.mpr ⟨proposalLine, hline, hcand⟩, htask, ?_⟩
    simpa using hcalc
  · intro it hmem
    have h1 : it ∈ dedupByKey []
        ((splitLines payload).filterMap (candidateOfLine callDate today)) :=
      List.take_subset 10 _ hmem
    have h2 := dedupByKey_subset it [] _ h1
    obtain ⟨line, _, hc⟩ := List.mem_filterMap.mp h2
    rw [candidateOfLine_due callDate today line it hc, hcalc]

/-- Witness for C4's amended theorem: payload is exactly the probe line,
call date 2026-10-05. -/
theorem fallback_proposal_item_witness :
    parse_action_items_response (fun _ => none) proposalLine
        (chars ("2026-10-05")) (absDayOfYmd 2026 10 5)
      = .ok (extract_action_items_from_text proposalLine (chars ("2026-10-05"))
        (absDayOfYmd 2026 10 5))
    ∧ (∃ it ∈ (splitLines proposalLine).filterMap
          (candidateOfLine (chars ("2026-10-05")) (absDayOfYmd 2026 10 5)),
        pyContains it.task (chars ("send the proposal")) = true
        ∧ it.due_date = some (formatYmd (absDayOfYmd 2026 10 5 + 7)))
    ∧ ∀ it ∈ extract_action_items_from_text proposalLine (chars ("2026-10-05"))
          (absDayOfYmd 2026 10 5),
        it.due_date = some (formatYmd (absDayOfYmd 2026 10 5 + 7)) :=
  fallback_proposal_item (fun _ => none) (absDayOfYmd 2026 10 5)
    (absDayOfYmd 2026 10 5) (chars ("2026-10-05")) proposalLine proposalLine
    rfl rfl (by decide) (by decide)

/-- Claim C5 counterexample: `get_full_transcript_text` performs no
`is_final` filtering — at the fixture `repoC5`, whose call 1 stores a final
chunk ("A: hello") and a non-final chunk ("B: draft"), the non-final chunk's
line appears in the full transcript, so the result differs from the claim's
final-only concatenation. -/
theorem full_transcript_includes_nonfinal :
    CallRepository.get_full_transcript_text repoC5 1
        ≠ spec_full_transcript_text repoC5 1
    ∧ pyContains (CallRepository.get_full_transcript_text repoC5 1)
        (chars ("B: draft")) = true := by
  decide

/-- Claim C5 amended: `get_full_transcript_text` returns the ordered (by
start offset) concatenation of `"speaker: text"` lines of ALL stored chunks
of the call, final or not; it coincides with the claim's final-only
concatenation exactly when every stored chunk of the call is final — which
the live pipeline guarantees by persisting only final chunks. -/
theorem full_transcript_all_chunks (s : RepoState) (callId : Nat)
    (hfin : ∀ c ∈ s.transcripts, c.call_id = callId → c.is_final = true) :
    CallRepository.get_full_transcript_text s callId
        = spec_full_transcript_text s callId := by
  unfold CallRepository.get_full_transcript_text spec_full_transcript_text
    CallRepository.get_transcript
  have hf : (s.transcripts.filter (fun t => t.call_id == callId)).filter
      (fun t => t.is_final) = s.transcripts.filter (fun t => t.call_id == callId) := by
    rw [List.filter_eq_self]
    intro c hc
    obtain ⟨hmem, hcall⟩ := List.mem_filter.mp hc
    exact hfin c hmem (by simpa using hcall)
  rw [hf]

/-- Witness for C5's amended theorem at the all-final fixture `repoC5W`
(stored out of order, sorted by start offset in the output). -/
theorem full_transcript_all_chunks_witness :
    CallRepository.get_full_transcript_text repoC5W 1
        = spec_full_transcript_text repoC5W 1 :=
  full_transcript_all_chunks repoC5W 1 (by decide)

/-- Folding buffer appends over any starting suffix stays a suffix of the
accumulated input: each append keeps a tail of `acc ++ [c]`. -/
theorem foldl_add_suffix (maxChunks : Nat) :
    ∀ (cs acc pre : List BChunk), acc <:+ pre →
      (cs.foldl (RedisClient.add_transcript_chunk maxChunks) acc) <:+ (pre ++ cs) := by
  intro cs
  induction cs with
  | nil => intro acc pre h; simpa using h
  | cons c cs ih =>
    intro acc pre h
    have hstep : RedisClient.add_transcript_chunk maxChunks acc c <:+ pre ++ [c] := by
      have h1 : RedisClient.add_transcript_chunk maxChunks acc c <:+ acc ++ [c] := by
        unfold RedisClient.add_transcript_chunk
        exact List.drop_suffix _ _
      have h2 : acc ++ [c] <:+ pre ++ [c] := by
        obtain ⟨t, ht⟩ := h
        exact ⟨t, by rw [← List.append_assoc, ht]⟩
      exact h1.trans h2
    have hres := ih (RedisClient.add_transcript_chunk maxChunks acc c) (pre ++ [c]) hstep
    simpa [List.append_assoc] using hres

/-- The buffer built from a sequence of appends is a suffix of that
sequence (`ltrim` only discards from the head). -/
theorem bufferOf_suffix (maxChunks : Nat) (cs : List BChunk) :
    RedisClient.bufferOf maxChunks cs <:+ cs := by
  have h := foldl_add_suffix maxChunks cs [] [] List.nil_suffix
  simpa [RedisClient.bufferOf] using h

/-- Filtering an upward-closed start-time condition out of a list whose
start times are nondecreasing keeps a suffix. -/
theorem filter_ge_suffix (cutoff : Rat) :
    ∀ (l : List BChunk),
      List.Pairwise (fun a b => a.start_time ≤ b.start_time) l →
      (l.filter (fun c => cutoff ≤ c.start_time)) <:+ l := by
  intro l
  induction l with
  | nil => intro _; simp
  | cons x xs ih =>
    intro hp
    rw [List.pairwise_cons] at hp
    obtain ⟨hx, hxs⟩ := hp
    by_cases hc : cutoff ≤ x.start_time
    · have hall : xs.filter (fun c => cutoff ≤ c.start_time) = xs := by
        rw [List.filter_eq_self]
        intro y hy
        exact decide_eq_true (le_trans hc (hx y hy))
      rw [List.filter_cons_of_pos (by exact decide_eq_true hc), hall]
    · rw [List.filter_cons_of_neg (by simpa using hc)]
      exact (ih hxs).trans (List.suffix_cons x xs)

/-- Claim C7: for every sequence of appended chunks, the windowed query
returns exactly the buffered chunks whose start offset is at least (latest
end offset − window), joined as `"speaker: text"` lines in buffer order
(`recentFilter` is the spec's wording of the selection); when start offsets
are monotonic the selection is a suffix of the buffer; and on an empty
buffer the query returns the empty string, not an error. -/
theorem recent_window_properties (cs : List BChunk) (maxChunks : Nat) (w : Rat) :
    RedisClient.get_recent_transcript_text (RedisClient.bufferOf maxChunks cs) w
      = joinLines ((RedisClient.recentFilter (RedisClient.bufferOf maxChunks cs) w).map
          RedisClient.bchunkLine)
    ∧ (List.Pairwise (fun a b => a.start_time ≤ b.start_time) cs →
        (RedisClient.recentFilter (RedisClient.bufferOf maxChunks cs) w).IsSuffix
          (RedisClient.bufferOf maxChunks cs))
    ∧ RedisClient.get_recent_transcript_text [] w = [] := by
  refine ⟨?_, ?_, rfl⟩
  · rcases hb : RedisClient.bufferOf maxChunks cs with _ | ⟨c, rest⟩ <;>
      simp [RedisClient.get_recent_transcript_text, RedisClient.recentFilter,
            joinLines]
  · intro hpw
    have hsuf := bufferOf_suffix maxChunks cs
    have hpw' : List.Pairwise (fun a b => a.start_time ≤ b.start_time)
        (RedisClient.bufferOf maxChunks cs) := hpw.sublist hsuf.sublist
    exact filter_ge_suffix _ _ hpw'

/-- Witness for C7 at a concrete append sequence (two chunks, window 50:
only the second chunk is inside the window, a suffix of the buffer). -/
theorem recent_window_properties_witness :
    RedisClient.get_recent_transcript_text
        (RedisClient.bufferOf 100
          [{ speaker := chars ("A"), text := chars ("x"), start_time := 0,
             end_time := 1, is_final := true },
           { speaker := chars ("B"), text := chars ("y"), start_time := 100,
             end_time := 101, is_final := true }]) 50
      = joinLines ((RedisClient.recentFilter
          (RedisClient.bufferOf 100
            [{ speaker := chars ("A"), text := chars ("x"), start_time := 0,
               end_time := 1, is_final := true },
             { speaker := chars ("B"), text := chars ("y"), start_time := 100,
               end_time := 101, is_final := true }]) 50).map RedisClient.bchunkLine)
    ∧ (RedisClient.recentFilter
          (RedisClient.bufferOf 100
            [{ speaker := chars ("A"), text := chars ("x"), start_time := 0,
               end_time := 1, is_final := true },
             { speaker := chars ("B"), text := chars ("y"), start_time := 100,
               end_time := 101, is_final := true }]) 50).IsSuffix
        (RedisClient.bufferOf 100
          [{ speaker := chars ("A"), text := chars ("x"), start_time := 0,
             end_time := 1, is_final := true },
           { speaker := chars ("B"), text := chars ("y"), start_time := 100,
             end_time := 101, is_final := true }]) :=
  ⟨(recent_window_properties _ 100 50).1,
   (recent_window_properties _ 100 50).2.1 (by decide)⟩

/-- Replacing a call's connection list is visible to the next lookup. -/
theorem find_updActive (k : Nat) (v : List Nat) :
    ∀ (a : List (Nat × List Nat)) (p : Nat × List Nat),
      a.find? (fun q => q.1 == k) = some p →
      (ConnectionManager.updActive a k v).find? (fun q => q.1 == k) = some (k, v) := by
  intro a
  induction a with
  | nil => intro p hp; simp at hp
  | cons x rest ih =>
    intro p hp
    have hexp : ConnectionManager.updActive (x :: rest) k v
        = (if (x.1 == k) = true then (k, v) else x)
            :: ConnectionManager.updActive rest k v := rfl
    by_cases hx : (x.1 == k) = true
    · rw [hexp, if_pos hx]
      have hk : (((k, v) : Nat × List Nat).1 == k) = true := by simp
      simp only [List.find?_cons, hk]
    · have hx' : (x.1 == k) = false := by simpa using hx
      simp only [List.find?_cons, hx'] at hp
      rw [hexp, if_neg hx]
      simp only [List.find?_cons, hx']
      exact ih p hp

/-- Deleting a call's entry makes the next lookup fail. -/
theorem find_filter_ne (callId : Nat) (a : List (Nat × List Nat)) :
    (a.filter (fun p => p.1 != callId)).find? (fun p => p.1 == callId) = none := by
  rw [List.find?_eq_none]
  intro x hx
  obtain ⟨_, hkeep⟩ := List.mem_filter.mp hx
  simpa using hkeep

/-- Effect of one `disconnect` on a call's connection list (empty when the
call has no entry): exactly one occurrence of the connection is erased, and
an emptied entry reads back as the empty list. -/
theorem lookup_disconnect (st : CMState) (conn callId : Nat) :
    (ConnectionManager.lookupActive
        (ConnectionManager.disconnect st conn callId) callId).getD []
      = ((ConnectionManager.lookupActive st callId).getD []).erase conn := by
  cases h : ConnectionManager.lookupActive st callId with
  | none =>
    have hd : ConnectionManager.disconnect st conn callId
        = { st with allConns := st.allConns.filter (fun c => c != conn) } := by
      unfold ConnectionManager.disconnect
      rw [h]
    rw [hd]
    have hl : ConnectionManager.lookupActive
        { st with allConns := st.allConns.filter (fun c => c != conn) } callId
        = ConnectionManager.lookupActive st callId := rfl
    rw [hl, h]
    rfl
  | some l =>
    by_cases he : l.erase conn = []
    · have hd : ConnectionManager.disconnect st conn callId
          = { active := st.active.filter (fun p => p.1 != callId),
              allConns := st.allConns.filter (fun c => c != conn) } := by
        unfold ConnectionManager.disconnect
        rw [h]
        simp [he]
      rw [hd]
      have hnone : ConnectionManager.lookupActive
          { active := st.active.filter (fun p => p.1 != callId),
            allConns := st.allConns.filter (fun c => c != conn) } callId = none := by
        unfold ConnectionManager.lookupActive
        rw [find_filter_ne]
        rfl
      rw [hnone]
      simpa using he.symm
    · have hd : ConnectionManager.disconnect st conn callId
          = { active := ConnectionManager.updActive st.active callId (l.erase conn),
              allConns := st.allConns.filter (fun c => c != conn) } := by
        unfold ConnectionManager.disconnect
        rw [h]
        simp [he]
      obtain ⟨p, hf, _⟩ : ∃ p, st.active.find? (fun q => q.1 == callId) = some p
          ∧ p.2 = l := by
        unfold ConnectionManager.lookupActive at h
        cases hf : st.active.find? (fun q => q.1 == callId) with
        | none => rw [hf] at h; simp at h
        | some p => rw [hf] at h; exact ⟨p, rfl, by simpa using h⟩
      have hu := find_updActive callId (l.erase conn) st.active p hf
      rw [hd]
      unfold ConnectionManager.lookupActive
      rw [hu]
      rfl

/-- Folding `disconnect` over a list of connections erases them in order
from the call's connection list. -/
theorem gc_foldl_disconnect (callId : Nat) :
    ∀ (failed : List Nat) (st : CMState),
      (ConnectionManager.lookupActive
          (failed.foldl (fun s c => ConnectionManager.disconnect s c callId) st)
          callId).getD []
        = failed.foldl (fun l c => l.erase c)
            ((ConnectionManager.lookupActive st callId).getD []) := by
  intro failed
  induction failed with
  | nil => intro st; rfl
  | cons f fs ih =>
    intro st
    simp only [List.foldl_cons]
    rw [ih (ConnectionManager.disconnect st f callId), lookup_disconnect]

/-- Erasing elements different from the head leaves the head in place. -/
theorem foldl_erase_cons_ne (x : Nat) :
    ∀ (fs : List Nat) (acc : List Nat), (∀ c ∈ fs, c ≠ x) →
      fs.foldl (fun l c => l.erase c) (x :: acc)
        = x :: fs.foldl (fun l c => l.erase c) acc := by
  intro fs
  induction fs with
  | nil => intro acc _; rfl
  | cons f fs ih =>
    intro acc hne
    have hfx : (x == f) = false :=
      beq_eq_false_iff_ne.mpr (fun hxf => hne f (List.mem_cons_self f fs) (hxf ▸ rfl))
    simp only [List.foldl_cons, List.erase_cons, hfx, if_false]
    exact ih (acc.erase f) (fun c hc => hne c (List.mem_cons_of_mem f hc))

/-- Erasing the failing connections from a duplicate-free list leaves
exactly the succeeding ones, in order. -/
theorem erase_foldl_filter (p : Nat → Bool) :
    ∀ (l : List Nat), l.Nodup →
      (l.filter (fun c => !p c)).foldl (fun acc c => acc.erase c) l = l.filter p := by
  intro l
  induction l with
  | nil => intro _; rfl
  | cons x xs ih =>
    intro hnd
    obtain ⟨hx, hxs⟩ := List.nodup_cons.mp hnd
    cases hp : p x with
    | true =>
      rw [List.filter_cons_of_neg (by simp [hp]), List.filter_cons_of_pos (by simp [hp])]
      rw [foldl_erase_cons_ne x _ xs
        (fun c hc => fun hcx => hx (hcx ▸ (List.mem_filter.mp hc).1))]
      rw [ih hxs]
    | false =>
      rw [List.filter_cons_of_pos (by simp [hp]), List.filter_cons_of_neg (by simp [hp])]
      simp only [List.foldl_cons, List.erase_cons_head]
      exact ih hxs

/-- Claim C8: broadcasting to a call with registered connections delivers
the message (timestamp added when absent) to exactly the connections whose
send succeeds, in order, and the connections whose send fails are silently
removed from the call's connection set (the embedding returns normally by
construction, mirroring the per-send try/except — broadcast never raises);
with one live and one dead connection, the live one is served. -/
theorem broadcast_delivers_and_evicts (sendOk : Nat → Bool) (st : CMState)
    (m : WsMsg) (callId now : Nat) (conns : List Nat)
    (h : ConnectionManager.lookupActive st callId = some conns)
    (_hne : conns ≠ []) (hnd : conns.Nodup) :
    (ConnectionManager.broadcast_to_call sendOk st m callId now).2
      = (conns.filter sendOk).map (fun c => (c, ConnectionManager.fillTimestamp m now))
    ∧ ConnectionManager.get_connections_for_call
        (ConnectionManager.broadcast_to_call sendOk st m callId now).1 callId
      = conns.filter sendOk := by
  have hb : ConnectionManager.broadcast_to_call sendOk st m callId now
      = ((conns.filter (fun c => !sendOk c)).foldl
            (fun s c => ConnectionManager.disconnect s c callId) st,
          (conns.filter sendOk).map
            (fun c => (c, ConnectionManager.fillTimestamp m now))) := by
    unfold ConnectionManager.broadcast_to_call
    rw [h]
    rcases m with ⟨pl, ts⟩
    cases ts <;> rfl
  rw [hb]
  refine ⟨rfl, ?_⟩
  unfold ConnectionManager.get_connections_for_call
  rw [gc_foldl_disconnect, h]
  have := erase_foldl_filter sendOk conns hnd
  simpa using this

/-- Witness for C8 at the fixture `cmC8`: connection 10 is live, 20 is dead;
the message is delivered to 10 with a timestamp added and 20 is evicted. -/
theorem broadcast_delivers_and_evicts_witness :
    (ConnectionManager.broadcast_to_call (fun c => c == 10) cmC8
        { payload := chars ("hello"), timestamp := none } 1 42).2
      = [(10, { payload := chars ("hello"), timestamp := some 42 })]
    ∧ ConnectionManager.get_connections_for_call
        (ConnectionManager.broadcast_to_call (fun c => c == 10) cmC8
          { payload := chars ("hello"), timestamp := none } 1 42).1 1
      = [10] := by
  have h := broadcast_delivers_and_evicts (fun c => c == 10) cmC8
    { payload := chars ("hello"), timestamp := none } 1 42 [10, 20]
    (by decide) (by decide) (by decide)
  exact ⟨by rw [h.1]; rfl, by rw [h.2]; rfl⟩

/-- Destructor for a successful `Except` bind. -/
theorem except_bind_eq_ok {α β : Type} {x : Except Unit α} {f : α → Except Unit β}
    {b : β} (h : (x >>= f) = .ok b) : ∃ a, x = .ok a ∧ f a = .ok b := by
  cases x with
  | error e => exact absurd h (by simp [Bind.bind, Except.bind])
  | ok a => exact ⟨a, rfl, h⟩

/-- Section assignment keeps the health score inside `[1, 10]`: only the
health section writes it, and it writes a clamped value. -/
theorem assign_score_bounds (sec : ParseSection) (line : Str) (s : SummaryD)
    (h1 : 1 ≤ s.deal_health_score) (h2 : s.deal_health_score ≤ 10) :
    1 ≤ (assignToSection sec line s).deal_health_score
    ∧ (assignToSection sec line s).deal_health_score ≤ 10 := by
  cases sec <;> simp only [assignToSection] <;> try exact ⟨h1, h2⟩
  cases hfn : findFirstNumber line <;> simp only [hfn]
  · exact ⟨h1, h2⟩
  · exact ⟨le_min (by norm_num) (le_max_left _ _), min_le_left _ _⟩

/-- One parsing step keeps the health score inside `[1, 10]`. -/
theorem text_step_score_bounds (st : Option ParseSection × SummaryD) (line : Str)
    (h1 : 1 ≤ st.2.deal_health_score) (h2 : st.2.deal_health_score ≤ 10) :
    1 ≤ (parse_text_summary_step st line).2.deal_health_score
    ∧ (parse_text_summary_step st line).2.deal_health_score ≤ 10 := by
  rcases st with ⟨cur, s⟩
  by_cases h0 : pyStrip line = []
  · simp [parse_text_summary_step, h0]
    exact ⟨h1, h2⟩
  · cases hh : headerSection (pyLower (pyStrip line)) with
    | some sec => simp [parse_text_summary_step, h0, hh]; exact ⟨h1, h2⟩
    | none =>
      cases cur with
      | none => simp [parse_text_summary_step, h0, hh]; exact ⟨h1, h2⟩
      | some sec =>
        simp only [parse_text_summary_step, h0, if_false, hh]
        exact assign_score_bounds sec _ s h1 h2

/-- The text-fallback parser always produces a health score in `[1, 10]`
(the initial value is 5; updates are clamped). -/
theorem text_summary_score_bounds (t : Str) :
    1 ≤ (parse_text_summary t).deal_health_score
    ∧ (parse_text_summary t).deal_health_score ≤ 10 := by
  unfold parse_text_summary
  have hgen : ∀ (ls : List Str) (st : Option ParseSection × SummaryD),
      1 ≤ st.2.deal_health_score → st.2.deal_health_score ≤ 10 →
      1 ≤ (ls.foldl parse_text_summary_step st).2.deal_health_score
      ∧ (ls.foldl parse_text_summary_step st).2.deal_health_score ≤ 10 := by
    intro ls
    induction ls with
    | nil => intro st hh1 hh2; exact ⟨hh1, hh2⟩
    | cons x ls ih =>
      intro st hh1 hh2
      obtain ⟨a1, a2⟩ := text_step_score_bounds st x hh1 hh2
      exact ih _ a1 a2
  exact hgen _ (none, textSummaryInit) (by norm_num [textSummaryInit])
    (by norm_num [textSummaryInit])

/-- Claim C9: every summary `_parse_summary_response` returns carries a
`deal_health_score` in `[1, 10]`, on the JSON path (explicit clamp) and on
the text-fallback path (clamped writes over an in-range initial value); in
particular a reported score of 0 is stored as 1 and a reported score of 15
is stored as 10, on both paths. -/
theorem summary_score_clamped :
    (∀ (loads : Str → Option Json) (txt : Str) (s : SummaryD),
        parse_summary_response loads txt = .ok s →
        1 ≤ s.deal_health_score ∧ s.deal_health_score ≤ 10)
    ∧ parse_summary_response
        (fun _ => some (Json.obj [(chars ("deal_health_score"), Json.num 0)]))
        (chars ("x"))
      = .ok { executive_summary := Json.str [], key_points := Json.arr [],
              pain_points := [], objections := [], next_steps := Json.str [],
              deal_health_score := 1, deal_health_reason := Json.str [] }
    ∧ parse_summary_response
        (fun _ => some (Json.obj [(chars ("deal_health_score"), Json.num 15)]))
        (chars ("x"))
      = .ok { executive_summary := Json.str [], key_points := Json.arr [],
              pain_points := [], objections := [], next_steps := Json.str [],
              deal_health_score := 10, deal_health_reason := Json.str [] }
    ∧ parse_summary_response (fun _ => none) (chars ("deal health score\n0"))
      = .ok { executive_summary := Json.str [], key_points := Json.arr [],
              pain_points := [], objections := [], next_steps := Json.str [],
              deal_health_score := 1,
              deal_health_reason := Json.str (chars ("0")) }
    ∧ parse_summary_response (fun _ => none) (chars ("deal health score\n15"))
      = .ok { executive_summary := Json.str [], key_points := Json.arr [],
              pain_points := [], objections := [], next_steps := Json.str [],
              deal_health_score := 10,
              deal_health_reason := Json.str (chars ("15")) } := by
  refine ⟨?_, rfl, rfl, rfl, rfl⟩
  intro loads txt s h
  unfold parse_summary_response at h
  obtain ⟨t, hp, h⟩ := except_bind_eq_ok h
  cases hl : loads t with
  | none =>
    rw [hl] at h
    cases h
    exact text_summary_score_bounds t
  | some j =>
    rw [hl] at h
    obtain ⟨es, _, h⟩ := except_bind_eq_ok h
    obtain ⟨kp, _, h⟩ := except_bind_eq_ok h
    obtain ⟨x1, _, h⟩ := except_bind_eq_ok h
    obtain ⟨pp, _, h⟩ := except_bind_eq_ok h
    obtain ⟨x2, _, h⟩ := except_bind_eq_ok h
    obtain ⟨ob, _, h⟩ := except_bind_eq_ok h
    obtain ⟨ns, _, h⟩ := except_bind_eq_ok h
    obtain ⟨y, _, h⟩ := except_bind_eq_ok h
    obtain ⟨sc, _, h⟩ := except_bind_eq_ok h
    obtain ⟨reason, _, h⟩ := except_bind_eq_ok h
    cases h
    exact ⟨le_min (by norm_num) (le_max_left _ _), min_le_left _ _⟩

/-- Witness for C9's universally quantified part, at the score-0 oracle. -/
theorem summary_score_clamped_witness :
    1 ≤ ({ executive_summary := Json.str [], key_points := Json.arr [],
           pain_points := [], objections := [], next_steps := Json.str [],
           deal_health_score := 1, deal_health_reason := Json.str [] }
            : SummaryD).deal_health_score
    ∧ ({ executive_summary := Json.str [], key_points := Json.arr [],
         pain_points := [], objections := [], next_steps := Json.str [],
         deal_health_score := 1, deal_health_reason := Json.str [] }
            : SummaryD).deal_health_score ≤ 10 :=
  summary_score_clamped.1
    (fun _ => some (Json.obj [(chars ("deal_health_score"), Json.num 0)]))
    (chars ("x")) _ rfl

/-- Claim C10: `extract_action_items` returns at most 10 action items for
every input (every branch — short-circuit, LLM failure, parse failure,
empty result — yields the single default item, and a non-empty parsed or
fallback-extracted list is truncated with `[:10]`); when the parse succeeds
with a non-empty list, the result is exactly its first 10 elements. -/
theorem extract_at_most_ten (loads : Str → Option Json) (today : Nat)
    (transcript accountName : Str) (callDate : Option Str) (llm : Option Str) :
    (extract_action_items loads today transcript accountName callDate llm).length ≤ 10
    ∧ (∀ (txt : Str) (items : List ActionItemD),
        llm = some txt →
        (decide (transcript = [])
          || decide ((pyStrip transcript).length < 50)) = false →
        parse_action_items_response loads txt (resolveCallDate callDate today) today
          = .ok items →
        items ≠ [] →
        extract_action_items loads today transcript accountName callDate llm
          = items.take 10) := by
  constructor
  · by_cases hc : (decide (transcript = [])
        || decide ((pyStrip transcript).length < 50)) = true
    · simp [extract_action_items, hc, generate_default_action_item]
    · have hc' : (decide (transcript = [])
          || decide ((pyStrip transcript).length < 50)) = false := by simpa using hc
      cases llm with
      | none => simp [extract_action_items, hc', generate_default_action_item]
      | some txt =>
        cases hpr : parse_action_items_response loads txt
            (resolveCallDate callDate today) today with
        | error e =>
          simp [extract_action_items, hc', hpr, generate_default_action_item]
        | ok items =>
          simp [extract_action_items, hc', hpr]
  · intro txt items hllm hcond hpr hne
    subst hllm
    simp [extract_action_items, hcond, hpr, hne]

/-- Witness for C10's conditional part: a parse producing one item is
returned as its own first-10 truncation. -/
theorem extract_at_most_ten_witness :
    (extract_action_items
        (fun _ => some (Json.obj [(chars ("action_items"),
          Json.arr [Json.str (chars ("task one ok"))])]))
        (absDayOfYmd 2026 10 5) transcript60 (chars ("Acme"))
        (some (chars ("2026-10-05"))) (some (chars ("x")))).length ≤ 10
    ∧ extract_action_items
        (fun _ => some (Json.obj [(chars ("action_items"),
          Json.arr [Json.str (chars ("task one ok"))])]))
        (absDayOfYmd 2026 10 5) transcript60 (chars ("Acme"))
        (some (chars ("2026-10-05"))) (some (chars ("x")))
      = ([{ task := chars ("task one ok"), owner := chars ("Seller"),
            due_date := some (calculate_default_due_date (chars ("2026-10-05"))
              (absDayOfYmd 2026 10 5)),
            priority := chars ("medium") }] : List ActionItemD).take 10 :=
  ⟨(extract_at_most_ten
      (fun _ => some (Json.obj [(chars ("action_items"),
        Json.arr [Json.str (chars ("task one ok"))])]))
      (absDayOfYmd 2026 10 5) transcript60 (chars ("Acme"))
      (some (chars ("2026-10-05"))) (some (chars ("x")))).1,
   (extract_at_most_ten
      (fun _ => some (Json.obj [(chars ("action_items"),
        Json.arr [Json.str (chars ("task one ok"))])]))
      (absDayOfYmd 2026 10 5) transcript60 (chars ("Acme"))
      (some (chars ("2026-10-05"))) (some (chars ("x")))).2
     (chars ("x")) _ rfl (by decide) rfl (by decide)⟩

/-- Claim C6 counterexample: with an extraction result of zero items, call
date 2020-01-01 and current date 2026-10-12, the synthesized default item is
due 2026-10-19 (current date + 7), not 2020-01-08 (call date + 7) — the
default item ignores the call date. -/
theorem default_item_due_is_today_not_call_date :
    parseYmd (chars ("2020-01-01")) = some (absDayOfYmd 2020 1 1)
    ∧ ((extract_action_items loadsEmptyItems (absDayOfYmd 2026 10 12)
          transcript60 (chars ("Acme")) (some (chars ("2020-01-01")))
          (some (chars ("x")))).map (fun i => i.due_date))
        ≠ [some (formatYmd (absDayOfYmd 2020 1 1 + 7))]
    ∧ ((extract_action_items loadsEmptyItems (absDayOfYmd 2026 10 12)
          transcript60 (chars ("Acme")) (some (chars ("2020-01-01")))
          (some (chars ("x")))).map (fun i => i.due_date))
        = [some (formatYmd (absDayOfYmd 2026 10 12 + 7))] := by
  decide

/-- Claim C6 amended: when the parsed extraction result contains zero action
items, `extract_action_items` returns exactly one item, owned by "Seller" —
but its due date is 7 days after the CURRENT date (`datetime.utcnow()`),
which coincides with 7 days after the call date only when the call date is
(or defaults to) the current date. -/
theorem empty_extraction_default_item (loads : Str → Option Json) (today : Nat)
    (transcript accountName : Str) (callDate : Option Str) (txt : Str)
    (hcond : (decide (transcript = [])
      || decide ((pyStrip transcript).length < 50)) = false)
    (hparse : parse_action_items_response loads txt (resolveCallDate callDate today)
      today = .ok []) :
    extract_action_items loads today transcript accountName callDate (some txt)
      = generate_default_action_item accountName today
    ∧ (extract_action_items loads today transcript accountName callDate
        (some txt)).length = 1
    ∧ ∀ it ∈ extract_action_items loads today transcript accountName callDate
        (some txt),
        it.owner = chars ("Seller")
        ∧ it.due_date = some (formatYmd (today + 7)) := by
  have hmain : extract_action_items loads today transcript accountName callDate
      (some txt) = generate_default_action_item accountName today := by
    simp [extract_action_items, hcond, hparse, generate_default_action_item]
  refine ⟨hmain, by rw [hmain]; rfl, ?_⟩
  intro it hit
  rw [hmain] at hit
  simp only [generate_default_action_item, List.mem_singleton] at hit
  subst hit
  exact ⟨rfl, rfl⟩

/-- Witness for C6's amended theorem at the counterexample input. -/
theorem empty_extraction_default_item_witness :
    extract_action_items loadsEmptyItems (absDayOfYmd 2026 10 12) transcript60
        (chars ("Acme")) (some (chars ("2020-01-01"))) (some (chars ("x")))
      = generate_default_action_item (chars ("Acme")) (absDayOfYmd 2026 10 12)
    ∧ (extract_action_items loadsEmptyItems (absDayOfYmd 2026 10 12) transcript60
        (chars ("Acme")) (some (chars ("2020-01-01"))) (some (chars ("x")))).length = 1
    ∧ ∀ it ∈ extract_action_items loadsEmptyItems (absDayOfYmd 2026 10 12)
        transcript60 (chars ("Acme")) (some (chars ("2020-01-01")))
        (some (chars ("x"))),
        it.owner = chars ("Seller")
        ∧ it.due_date = some (formatYmd (absDayOfYmd 2026 10 12 + 7)) :=
  empty_extraction_default_item loadsEmptyItems (absDayOfYmd 2026 10 12)
    transcript60 (chars ("Acme")) (some (chars ("2020-01-01"))) (chars ("x"))
    (by decide) rfl
